import Mathlib

/- Shallow embedding of the customer-booking dashboard aggregation core
   (dashboard/src/App.tsx, the ChartPanel component, and
   dashboard/src/utils/routeMapping.ts).

   JavaScript numbers are idealized as exact rationals; the special values
   NaN, Infinity and -Infinity are modelled explicitly by the JSNum type.
   JavaScript plain objects used as dictionaries are modelled by association
   lists in insertion order, and Object.entries enumeration order (canonical
   array-index keys first, in ascending numeric order, then the remaining
   string keys in insertion order) is modelled by jsEntries. -/

/-- Model of a JavaScript number as used by the aggregation core:
either a finite rational or one of the special values. -/
inductive JSNum where
  | nan : JSNum
  | posInf : JSNum
  | negInf : JSNum
  | fin (q : ℚ) : JSNum
  deriving DecidableEq, Repr

/-- Model of JavaScript addition on numbers. -/
def JSNum.add : JSNum → JSNum → JSNum
  | nan, _ => nan
  | _, nan => nan
  | posInf, negInf => nan
  | negInf, posInf => nan
  | posInf, _ => posInf
  | _, posInf => posInf
  | negInf, _ => negInf
  | _, negInf => negInf
  | fin a, fin b => fin (a + b)

/-- Model of JavaScript division of a number by a (count) natural number. -/
def JSNum.divNat : JSNum → Nat → JSNum
  | nan, _ => nan
  | posInf, _ => posInf
  | negInf, _ => negInf
  | fin q, n =>
    if n = 0 then
      if 0 < q then posInf else if q < 0 then negInf else nan
    else fin (q / (n : ℚ))

/-- Numeric value of a list of decimal digit characters. -/
def digitsVal (cs : List Char) : Nat :=
  cs.foldl (fun a c => a * 10 + (c.toNat - 48)) 0

/-- Parse an unsigned decimal magnitude, digits with an optional decimal
point, as JavaScript does for such strings. -/
def parseMag (cs : List Char) : Option ℚ :=
  let ip := cs.takeWhile (fun c => c != '.')
  let rest := cs.dropWhile (fun c => c != '.')
  match rest with
  | [] =>
    if ip ≠ [] ∧ ip.all Char.isDigit then some ((digitsVal ip : ℚ)) else none
  | _ :: fp =>
    if (ip ≠ [] ∨ fp ≠ []) ∧ ip.all Char.isDigit ∧ fp.all Char.isDigit then
      some ((digitsVal ip : ℚ) + (digitsVal fp : ℚ) / ((10 : ℚ) ^ fp.length))
    else none

/-- Strip leading and trailing whitespace from a character list. -/
def trimChars (cs : List Char) : List Char :=
  ((cs.dropWhile Char.isWhitespace).reverse.dropWhile Char.isWhitespace).reverse

/-- Model of the JavaScript Number conversion applied to an optional string
field (Number of undefined is NaN).  Covers the decimal fragment used by the
dashboard data: whitespace trimming, the empty string converting to 0, signed
Infinity, and signed decimal literals; anything else converts to NaN. -/
def jsNumber : Option String → JSNum
  | none => JSNum.nan
  | some s =>
    let cs := trimChars s.toList
    if cs.isEmpty then JSNum.fin 0
    else
      let neg := cs.head? == some '-'
      let mag := if cs.head? == some '-' || cs.head? == some '+' then cs.tail else cs
      if mag = "Infinity".toList then
        if neg then JSNum.negInf else JSNum.posInf
      else
        match parseMag mag with
        | some q => JSNum.fin (if neg then -q else q)
        | none => JSNum.nan

/-- Model of the JavaScript idiom x or-else 0: NaN (and 0 itself) is replaced
by 0, every other value, including the infinities, passes through. -/
def orZero : JSNum → JSNum
  | JSNum.nan => JSNum.fin 0
  | x => x

/-- Floor of a rational, computed directly on numerator and denominator. -/
def qfloor (q : ℚ) : ℤ := Int.fdiv q.num (q.den : ℤ)

/-- Round a rational to the nearest integer, half away from zero, as the
JavaScript toFixed algorithm does on the magnitude with the sign restored. -/
def rha (q : ℚ) : ℤ := if 0 ≤ q then qfloor (q + 1/2) else - qfloor (-q + 1/2)

/-- Model of the net effect of the plus-toFixed(1) idiom on a number:
a finite value is rounded to one decimal place, the special values map to
themselves (their toFixed strings convert back to the same value). -/
def fix1 : JSNum → JSNum
  | JSNum.fin q => JSNum.fin ((rha (10 * q) : ℚ) / 10)
  | x => x

/-- Model of toFixed(1) producing a string from a finite rational. -/
def toFixed1Str (q : ℚ) : String :=
  let sgn := if q < 0 then "-" else ""
  let m := (rha (10 * q)).natAbs
  sgn ++ toString (m / 10) ++ "." ++ toString (m % 10)

/-- Model of toFixed(1) on a general JavaScript number. -/
def jsNumToFixed1 : JSNum → String
  | JSNum.nan => "NaN"
  | JSNum.posInf => "Infinity"
  | JSNum.negInf => "-Infinity"
  | JSNum.fin q => toFixed1Str q

/-- One row of the parsed CSV, restricted to the fields the aggregation core
consumes.  Each field is an optional string: a missing column is none, which
models the JavaScript undefined property access. -/
structure BookingRecord where
  route : Option String
  trip_type : Option String
  booking_complete : Option String
  num_passengers : Option String
  purchase_lead : Option String
  deriving DecidableEq, Repr

/-- The pair of facet selections held in component state; the empty string
means no constraint on that facet. -/
structure Selection where
  route : String
  tripType : String
  deriving DecidableEq, Repr

/-- The row predicate of the filteredData memo in App.tsx: a row is dropped
when a route is selected and differs from the row route, or when a trip type
is selected and differs from the row trip type. -/
def rowPass (sel : Selection) (r : BookingRecord) : Bool :=
  (sel.route == "" || r.route == some sel.route) &&
    (sel.tripType == "" || r.trip_type == some sel.tripType)

/-- The filteredData memo of App.tsx. -/
def filteredData (data : List BookingRecord) (sel : Selection) : List BookingRecord :=
  data.filter (rowPass sel)

/-- The filter predicate as worded by the specification: route selection
empty or equal to the record route, and trip-type selection empty or equal
to the record trip type. -/
def specPass (sel : Selection) (r : BookingRecord) : Bool :=
  decide ((sel.route = "" ∨ r.route = some sel.route) ∧
    (sel.tripType = "" ∨ r.trip_type = some sel.tripType))

/-- Update an association list the way assignment to an object property does:
replace the value at an existing key in place, otherwise append a new entry
whose value is f applied to the initial value. -/
def bump {V : Type} (k : String) (init : V) (f : V → V) :
    List (String × V) → List (String × V)
  | [] => [(k, f init)]
  | (k', v) :: rest =>
    if k' = k then (k', f v) :: rest else (k', v) :: bump k init f rest

/-- Lookup of a key in an association list. -/
def lookupKey {V : Type} (k : String) : List (String × V) → Option V
  | [] => none
  | (k', v) :: rest => if k' = k then some v else lookupKey k rest

/-- Keys of an association list, in list order. -/
def keysOf {V : Type} (m : List (String × V)) : List String := m.map Prod.fst

/-- Value stored at a key, with a default for an absent key. -/
def valAt {V : Type} (init : V) (k : String) (m : List (String × V)) : V :=
  (lookupKey k m).getD init

/-- Test whether a string is a canonical array-index property key in the
JavaScript sense: a string of decimal digits without a leading zero (except
the string 0 itself) whose value is below 2 to the 32 minus 1. -/
def arrayIndex (s : String) : Option Nat :=
  let cs := s.toList
  if (!cs.isEmpty && cs.all Char.isDigit) &&
      (cs == ['0'] || cs.head? != some '0') then
    let n := digitsVal cs
    if n < 4294967295 then some n else none
  else none

/-- Whether an entry of an association list sits at an array-index key. -/
def isIndexKey {V : Type} (p : String × V) : Bool := (arrayIndex p.1).isSome

/-- Numeric value of an array-index key, used only to order such keys. -/
def keyNum {V : Type} (p : String × V) : Nat := (arrayIndex p.1).getD 0

/-- Model of Object.entries enumeration order on a plain object built by
insertion: canonical array-index keys first, in ascending numeric order,
then the remaining string keys in insertion order. -/
def jsEntries {V : Type} (m : List (String × V)) : List (String × V) :=
  List.insertionSort (fun a b => keyNum a ≤ keyNum b) (m.filter isIndexKey) ++
    m.filter (fun p => !isIndexKey p)

/-- Categorical default of the ChartPanel groupings: a missing or empty
string field collapses to the literal Unknown. -/
def orUnknown (o : Option String) : String :=
  match o with
  | none => "Unknown"
  | some s => if s = "" then "Unknown" else s

/-- Grouping key of the route-based charts. -/
def routeKey (r : BookingRecord) : String := orUnknown r.route

/-- Grouping key of the trip-type chart. -/
def tripKey (r : BookingRecord) : String := orUnknown r.trip_type

/-- Grouping key of the completion chart: String(booking_complete ?? 0),
so only a missing field defaults, the empty string stays empty. -/
def bcKey (r : BookingRecord) : String := r.booking_complete.getD "0"

/-- Per-key record count, in insertion order, as built by the counts object
of the ChartPanel memos. -/
def countsBy (key : BookingRecord → String) (d : List BookingRecord) :
    List (String × Nat) :=
  d.foldl (fun m r => bump (key r) 0 (fun n => n + 1) m) []

/-- Coerced numeric value of the purchase_lead field: Number(x) or-else 0. -/
def coerceLead (r : BookingRecord) : JSNum := orZero (jsNumber r.purchase_lead)

/-- Per-route running sum and count of purchase_lead, in insertion order,
as built by the sums object of the avgLeadByRoute memo. -/
def sumsBy (d : List BookingRecord) : List (String × (JSNum × Nat)) :=
  d.foldl (fun m r =>
    bump (routeKey r) (JSNum.fin 0, 0)
      (fun sc => (sc.1.add (coerceLead r), sc.2 + 1)) m) []

/-- The static route-code to display-name table of routeMapping.ts. -/
def ROUTE_NAMES : List (String × String) :=
  [("AKLDEL", "Auckland → Delhi"),
   ("AKLHGH", "Auckland → Hangzhou"),
   ("AKLHND", "Auckland → Tokyo (Haneda)"),
   ("AKLICN", "Auckland → Seoul (Incheon)"),
   ("AKLKIX", "Auckland → Osaka (Kansai)"),
   ("AKLKTM", "Auckland → Kathmandu"),
   ("AKLKUL", "Auckland → Kuala Lumpur"),
   ("AKLNRT", "Auckland → Tokyo (Narita)"),
   ("AKLPVG", "Auckland → Shanghai"),
   ("AKLSIN", "Auckland → Singapore"),
   ("AKLTPE", "Auckland → Taipei"),
   ("MELBKK", "Melbourne → Bangkok"),
   ("MELDEL", "Melbourne → Delhi"),
   ("MELHKG", "Melbourne → Hong Kong"),
   ("MELSIN", "Melbourne → Singapore"),
   ("SYDBKK", "Sydney → Bangkok"),
   ("SYDDEL", "Sydney → Delhi"),
   ("SYDHKG", "Sydney → Hong Kong"),
   ("SYDSIN", "Sydney → Singapore")]

/-- Resolve a route code to its display name, falling back to the code. -/
def getRouteName (routeCode : String) : String :=
  (lookupKey routeCode ROUTE_NAMES).getD routeCode

/-- The byCompletion memo of ChartPanel: one entry per distinct raw
booking_complete key, relabelled Complete for the key 1 and Incomplete
for every other key. -/
def byCompletion (data : List BookingRecord) : List (String × Nat) :=
  if data.isEmpty then []
  else (jsEntries (countsBy bcKey data)).map
    (fun p => (if p.1 = "1" then "Complete" else "Incomplete", p.2))

/-- The byTripType memo of ChartPanel. -/
def byTripType (data : List BookingRecord) : List (String × Nat) :=
  if data.isEmpty then [] else jsEntries (countsBy tripKey data)

/-- The relation the stable descending count sort uses. -/
def countGE (a b : String × Nat) : Prop := b.2 ≤ a.2

instance : DecidableRel countGE := fun a b => Nat.decLe b.2 a.2

instance : IsTotal (String × Nat) countGE := ⟨fun a b => Nat.le_total b.2 a.2⟩

instance : IsTrans (String × Nat) countGE :=
  ⟨fun _ _ _ hab hbc => Nat.le_trans hbc hab⟩

/-- Model of the stable JavaScript sort with comparator b count minus
a count, i.e. a stable sort descending by count. -/
def sortByCountDesc (l : List (String × Nat)) : List (String × Nat) :=
  List.insertionSort countGE l

/-- The topRoutes memo of ChartPanel: route counts, sorted descending by
count, truncated to ten, route codes resolved to display names. -/
def topRoutes (data : List BookingRecord) : List (String × Nat) :=
  if data.isEmpty then []
  else ((sortByCountDesc (jsEntries (countsBy routeKey data))).take 10).map
    (fun p => (getRouteName p.1, p.2))

/-- The avgLeadByRoute memo of ChartPanel: first twelve entries of the sums
object in enumeration order, each mapped to the resolved route name and the
rounded average lead. -/
def avgLeadByRoute (data : List BookingRecord) : List (String × JSNum) :=
  if data.isEmpty then []
  else ((jsEntries (sumsBy data)).take 12).map
    (fun p => (getRouteName p.1, fix1 (JSNum.divNat p.2.1 p.2.2)))

/-- Worker of firstSeen: keep the elements not yet seen, accumulating the
seen ones. -/
def firstSeenAux {α : Type} [DecidableEq α] (seen : List α) : List α → List α
  | [] => []
  | a :: l => if a ∈ seen then firstSeenAux seen l else a :: firstSeenAux (a :: seen) l

/-- First occurrence of each element, in first-seen order. -/
def firstSeen {α : Type} [DecidableEq α] (l : List α) : List α := firstSeenAux [] l

/-- The truthy values of an optional-string column: missing and empty values
are dropped, as the filter(Boolean) call of App.tsx does. -/
def truthyVals (l : List (Option String)) : List String :=
  l.filterMap (fun o => match o with
    | none => none
    | some s => if s = "" then none else some s)

/-- The routes facet list of App.tsx: distinct truthy route values, sorted
ascending. -/
def routesFacet (data : List BookingRecord) : List String :=
  List.insertionSort (fun a b => a ≤ b)
    (firstSeen (truthyVals (data.map (fun r => r.route))))

/-- The tripTypes facet list of App.tsx: distinct truthy trip_type values,
sorted ascending. -/
def tripTypesFacet (data : List BookingRecord) : List String :=
  List.insertionSort (fun a b => a ≤ b)
    (firstSeen (truthyVals (data.map (fun r => r.trip_type))))

/-- Coerced numeric value of the num_passengers field as the stats memo
computes it: Number of (num_passengers or-else 0), with no NaN guard after
the conversion. -/
def numPassVal (r : BookingRecord) : JSNum :=
  match r.num_passengers with
  | none => JSNum.fin 0
  | some s => if s = "" then JSNum.fin 0 else jsNumber (some s)

/-- The summary statistics of the stats memo of App.tsx. -/
structure Stats where
  total : Nat
  completed : Nat
  completionRate : String
  avgPassengers : String
  uniqueRoutes : Nat
  deriving DecidableEq, Repr

/-- The stats memo of App.tsx over the filtered data. -/
def statsOf (fd : List BookingRecord) : Stats :=
  let completed := (fd.filter (fun r => r.booking_complete == some "1")).length
  let total := fd.length
  let completionRate :=
    if 0 < total then toFixed1Str (((completed : ℚ) / (total : ℚ)) * 100) else "0"
  let sumPass := (fd.map numPassVal).foldl JSNum.add (JSNum.fin 0)
  let avgPassengers :=
    if 0 < total then jsNumToFixed1 (JSNum.divNat sumPass total) else "0"
  let uniqueRoutes := (firstSeen (fd.map (fun r => r.route))).length
  ⟨total, completed, completionRate, avgPassengers, uniqueRoutes⟩

/-- The top-routes projection as worded by the specification: count records
per distinct route in first-seen order, sort stably descending by count,
take the first ten, resolve display names. -/
def specTopRoutes (data : List BookingRecord) : List (String × Nat) :=
  ((sortByCountDesc ((firstSeen (data.map routeKey)).map
    (fun k => (k, data.countP (fun r => decide (routeKey r = k)))))).take 10).map
    (fun p => (getRouteName p.1, p.2))

/-- Sum of the coerced purchase_lead values of the records of one route, in
record order. -/
def leadSum (data : List BookingRecord) (k : String) : JSNum :=
  ((data.filter (fun r => decide (routeKey r = k))).map coerceLead).foldl
    JSNum.add (JSNum.fin 0)

/-- Number of records of one route. -/
def leadCount (data : List BookingRecord) (k : String) : Nat :=
  data.countP (fun r => decide (routeKey r = k))

/-- The average-lead projection as worded by the specification: the first
twelve distinct routes in first-seen insertion order, each with the rounded
average of its coerced purchase_lead values and its resolved display name. -/
def specAvgLead (data : List BookingRecord) : List (String × JSNum) :=
  ((firstSeen (data.map routeKey)).take 12).map
    (fun k => (getRouteName k, fix1 (JSNum.divNat (leadSum data k) (leadCount data k))))

/-- The three-record scenario of the specification test properties. -/
def scenario3 : List BookingRecord :=
  [⟨some "AKLDEL", some "RoundTrip", some "1", none, some "10"⟩,
   ⟨some "AKLDEL", some "RoundTrip", some "0", none, some "20"⟩,
   ⟨some "SYDBKK", some "OneWay", some "1", none, some "5"⟩]

/-- Records carrying three distinct booking_complete values. -/
def mixedCompletion : List BookingRecord :=
  [⟨none, none, some "0", none, none⟩,
   ⟨none, none, some "2", none, none⟩,
   ⟨none, none, some "1", none, none⟩]

/-- Two routes with equal counts, one of them a canonical numeric string. -/
def numericRouteData : List BookingRecord :=
  [⟨some "AKLDEL", none, none, none, none⟩,
   ⟨some "7", none, none, none, none⟩]

/-- Two routes, one of them numeric, with integer purchase leads. -/
def numericRouteLeads : List BookingRecord :=
  [⟨some "AKLDEL", none, none, none, some "2"⟩,
   ⟨some "7", none, none, none, some "4"⟩]

/-- One-record store whose purchase_lead does not parse as a number. -/
def nanLeadStore : List BookingRecord :=
  [⟨some "AKLDEL", none, none, none, some "abc"⟩]

theorem lookupKey_bump {V : Type} (k k0 : String) (init : V) (f : V → V)
    (m : List (String × V)) :
    lookupKey k0 (bump k init f m) =
      if k = k0 then some (f (valAt init k0 m)) else lookupKey k0 m := by
  induction m with
  | nil => by_cases h : k = k0 <;> simp [bump, lookupKey, valAt, h]
  | cons p rest ih =>
    obtain ⟨k1, v⟩ := p
    by_cases h1 : k1 = k
    · subst h1
      by_cases h2 : k1 = k0 <;> simp [bump, lookupKey, valAt, h2]
    · by_cases h2 : k1 = k0
      · subst h2
        have h3 : ¬ k = k1 := fun he => h1 he.symm
        simp [bump, lookupKey, valAt, h1, h3]
      · simp [bump, lookupKey, valAt, h1, h2, ih]

theorem keysOf_bump {V : Type} (k : String) (init : V) (f : V → V)
    (m : List (String × V)) :
    keysOf (bump k init f m) =
      if k ∈ keysOf m then keysOf m else keysOf m ++ [k] := by
  induction m with
  | nil => simp [bump, keysOf]
  | cons p rest ih =>
    obtain ⟨k1, v⟩ := p
    by_cases h1 : k1 = k
    · subst h1
      simp [bump, keysOf]
    · have h2 : ¬ k = k1 := fun he => h1 he.symm
      simp only [keysOf] at ih ⊢
      simp only [bump, if_neg h1, List.map_cons]
      rw [ih]
      by_cases h3 : k ∈ List.map Prod.fst rest
      · simp [h3, h2, List.mem_cons]
      · simp [h3, h2, List.mem_cons]

theorem valAt_foldl_bump {V : Type} (key : BookingRecord → String) (init : V)
    (g : BookingRecord → V → V) (k : String) :
    ∀ (d : List BookingRecord) (m : List (String × V)),
      valAt init k (d.foldl (fun m r => bump (key r) init (g r) m) m) =
        (d.filter (fun r => decide (key r = k))).foldl
          (fun v r => g r v) (valAt init k m)
  | [], m => rfl
  | r :: d, m => by
    rw [List.foldl_cons, valAt_foldl_bump key init g k d]
    by_cases h : key r = k
    · rw [List.filter_cons_of_pos (by simpa using h), List.foldl_cons]
      congr 1
      simp [valAt, lookupKey_bump, h]
    · rw [List.filter_cons_of_neg (by simpa using h)]
      congr 1
      simp [valAt, lookupKey_bump, h]

theorem mem_firstSeenAux {α : Type} [DecidableEq α] :
    ∀ (l seen : List α) (x : α),
      x ∈ firstSeenAux seen l ↔ x ∈ l ∧ x ∉ seen
  | [], seen, x => by simp [firstSeenAux]
  | a :: l, seen, x => by
    by_cases h : a ∈ seen
    · rw [show firstSeenAux seen (a :: l) = firstSeenAux seen l from by
        simp [firstSeenAux, h]]
      rw [mem_firstSeenAux l seen x]
      constructor
      · rintro ⟨h1, h2⟩
        exact ⟨List.mem_cons_of_mem a h1, h2⟩
      · rintro ⟨h1, h2⟩
        rcases List.mem_cons.mp h1 with rfl | h1
        · exact absurd h h2
        · exact ⟨h1, h2⟩
    · rw [show firstSeenAux seen (a :: l) = a :: firstSeenAux (a :: seen) l from by
        simp [firstSeenAux, h]]
      rw [List.mem_cons, mem_firstSeenAux l (a :: seen) x]
      simp only [List.mem_cons]
      constructor
      · rintro (rfl | ⟨h1, h2⟩)
        · exact ⟨Or.inl rfl, h⟩
        · exact ⟨Or.inr h1, fun hx => h2 (Or.inr hx)⟩
      · rintro ⟨rfl | h1, h2⟩
        · exact Or.inl rfl
        · by_cases hxa : x = a
          · exact Or.inl hxa
          · exact Or.inr ⟨h1, fun hx => (hx.elim hxa h2)⟩

theorem nodup_firstSeenAux {α : Type} [DecidableEq α] :
    ∀ (l seen : List α), (firstSeenAux seen l).Nodup
  | [], seen => by simp [firstSeenAux]
  | a :: l, seen => by
    by_cases h : a ∈ seen
    · rw [show firstSeenAux seen (a :: l) = firstSeenAux seen l from by
        simp [firstSeenAux, h]]
      exact nodup_firstSeenAux l seen
    · rw [show firstSeenAux seen (a :: l) = a :: firstSeenAux (a :: seen) l from by
        simp [firstSeenAux, h]]
      refine List.nodup_cons.mpr ⟨?_, nodup_firstSeenAux l (a :: seen)⟩
      intro hmem
      exact ((mem_firstSeenAux l (a :: seen) a).mp hmem).2 (List.mem_cons_self a seen)

theorem firstSeenAux_congr {α : Type} [DecidableEq α] :
    ∀ (l s1 s2 : List α), (∀ x, x ∈ s1 ↔ x ∈ s2) →
      firstSeenAux s1 l = firstSeenAux s2 l
  | [], _, _, _ => rfl
  | a :: l, s1, s2, h => by
    by_cases h1 : a ∈ s1
    · have h2 : a ∈ s2 := (h a).mp h1
      simp only [firstSeenAux, if_pos h1, if_pos h2]
      exact firstSeenAux_congr l s1 s2 h
    · have h2 : a ∉ s2 := fun hx => h1 ((h a).mpr hx)
      simp only [firstSeenAux, if_neg h1, if_neg h2]
      rw [firstSeenAux_congr l (a :: s1) (a :: s2) (fun x => by
        simp only [List.mem_cons, h x])]

theorem keysOf_foldl_bump {V : Type} (key : BookingRecord → String) (init : V)
    (g : BookingRecord → V → V) :
    ∀ (d : List BookingRecord) (m : List (String × V)),
      keysOf (d.foldl (fun m r => bump (key r) init (g r) m) m) =
        keysOf m ++ firstSeenAux (keysOf m) (d.map key)
  | [], m => by simp [firstSeenAux]
  | r :: d, m => by
    rw [List.foldl_cons, keysOf_foldl_bump key init g d, keysOf_bump, List.map_cons]
    by_cases h : key r ∈ keysOf m
    · rw [if_pos h, show firstSeenAux (keysOf m) (key r :: d.map key) =
        firstSeenAux (keysOf m) (d.map key) from by simp [firstSeenAux, h]]
    · rw [if_neg h, show firstSeenAux (keysOf m) (key r :: d.map key) =
        key r :: firstSeenAux (key r :: keysOf m) (d.map key) from by
          simp [firstSeenAux, h]]
      rw [List.append_assoc, List.singleton_append]
      congr 1
      congr 1
      exact firstSeenAux_congr _ _ _ (fun x => by
        simp only [List.mem_append, List.mem_singleton, List.mem_cons]
        tauto)

theorem mem_firstSeen {α : Type} [DecidableEq α] (l : List α) (x : α) :
    x ∈ firstSeen l ↔ x ∈ l := by
  rw [firstSeen, mem_firstSeenAux]
  simp

theorem nodup_firstSeen {α : Type} [DecidableEq α] (l : List α) :
    (firstSeen l).Nodup := nodup_firstSeenAux l []

theorem assoc_eq_keys_map {V : Type} (init : V) :
    ∀ (m : List (String × V)), (keysOf m).Nodup →
      (keysOf m).map (fun k => (k, valAt init k m)) = m
  | [], _ => rfl
  | (k, v) :: rest, h => by
    have h1 : k ∉ keysOf rest := by
      simp only [keysOf, List.map_cons, List.nodup_cons] at h
      exact h.1
    have h2 : (keysOf rest).Nodup := by
      simp only [keysOf, List.map_cons, List.nodup_cons] at h
      exact h.2
    have htail : (keysOf rest).map (fun k2 => (k2, valAt init k2 ((k, v) :: rest))) =
        (keysOf rest).map (fun k2 => (k2, valAt init k2 rest)) := by
      apply List.map_congr_left
      intro a ha
      have hak : ¬ k = a := fun he => h1 (he ▸ ha)
      simp [valAt, lookupKey, hak]
    show (k :: keysOf rest).map (fun k2 => (k2, valAt init k2 ((k, v) :: rest))) =
      (k, v) :: rest
    rw [List.map_cons]
    congr 1
    · simp [valAt, lookupKey]
    · rw [htail]
      exact assoc_eq_keys_map init rest h2

theorem foldl_count {α : Type} (l : List α) :
    ∀ a : Nat, l.foldl (fun v _ => v + 1) a = a + l.length := by
  induction l with
  | nil => intro a; simp
  | cons x l ih =>
    intro a
    rw [List.foldl_cons, ih, List.length_cons]
    omega

theorem keysOf_countsBy (key : BookingRecord → String) (d : List BookingRecord) :
    keysOf (countsBy key d) = firstSeen (d.map key) := by
  rw [countsBy, keysOf_foldl_bump]
  simp [keysOf, firstSeen]

theorem valAt_countsBy (key : BookingRecord → String) (d : List BookingRecord)
    (k : String) :
    valAt 0 k (countsBy key d) = d.countP (fun r => decide (key r = k)) := by
  rw [countsBy, valAt_foldl_bump]
  have h0 : valAt (0 : Nat) k ([] : List (String × Nat)) = 0 := rfl
  rw [h0, List.countP_eq_length_filter, foldl_count]
  omega

theorem countsBy_eq (key : BookingRecord → String) (d : List BookingRecord) :
    countsBy key d = (firstSeen (d.map key)).map
      (fun k => (k, d.countP (fun r => decide (key r = k)))) := by
  have hk := keysOf_countsBy key d
  have hnd : (keysOf (countsBy key d)).Nodup := by
    rw [hk]
    exact nodup_firstSeen _
  conv_lhs => rw [← assoc_eq_keys_map 0 (countsBy key d) hnd]
  rw [hk]
  apply List.map_congr_left
  intro k _
  rw [valAt_countsBy]

theorem foldl_pair_split (l : List BookingRecord) :
    ∀ (s0 : JSNum) (c0 : Nat),
      l.foldl (fun sc r => (JSNum.add sc.1 (coerceLead r), sc.2 + 1)) (s0, c0) =
        (l.foldl (fun s r => JSNum.add s (coerceLead r)) s0, c0 + l.length) := by
  induction l with
  | nil => intro s0 c0; simp
  | cons x l ih =>
    intro s0 c0
    rw [List.foldl_cons, List.foldl_cons, ih, List.length_cons]
    simp only [Prod.mk.injEq]
    exact ⟨trivial, by omega⟩

theorem keysOf_sumsBy (d : List BookingRecord) :
    keysOf (sumsBy d) = firstSeen (d.map routeKey) := by
  rw [sumsBy, keysOf_foldl_bump]
  simp [keysOf, firstSeen]

theorem valAt_sumsBy (d : List BookingRecord) (k : String) :
    valAt (JSNum.fin 0, 0) k (sumsBy d) = (leadSum d k, leadCount d k) := by
  rw [sumsBy, valAt_foldl_bump]
  have h0 : valAt (JSNum.fin 0, (0 : Nat)) k ([] : List (String × (JSNum × Nat))) =
      (JSNum.fin 0, 0) := rfl
  rw [h0, foldl_pair_split, leadSum, leadCount, List.foldl_map,
    List.countP_eq_length_filter]
  simp

theorem sumsBy_eq (d : List BookingRecord) :
    sumsBy d = (firstSeen (d.map routeKey)).map
      (fun k => (k, (leadSum d k, leadCount d k))) := by
  have hk := keysOf_sumsBy d
  have hnd : (keysOf (sumsBy d)).Nodup := by
    rw [hk]
    exact nodup_firstSeen _
  conv_lhs => rw [← assoc_eq_keys_map (JSNum.fin 0, 0) (sumsBy d) hnd]
  rw [hk]
  apply List.map_congr_left
  intro k _
  rw [valAt_sumsBy]

theorem jsEntries_perm {V : Type} (m : List (String × V)) :
    List.Perm (jsEntries m) m := by
  unfold jsEntries
  exact ((List.perm_insertionSort _ _).append (List.Perm.refl _)).trans
    (List.filter_append_perm isIndexKey m)

theorem jsEntries_eq_self {V : Type} (m : List (String × V))
    (h : ∀ p ∈ m, isIndexKey p = false) : jsEntries m = m := by
  unfold jsEntries
  rw [List.filter_eq_nil_iff.mpr (fun a ha => by simp [h a ha]),
    List.filter_eq_self.mpr (fun a ha => by simp [h a ha])]
  rfl

theorem no_index_of_keys {V : Type} {key : BookingRecord → String}
    {d : List BookingRecord} {m : List (String × V)}
    (hk : keysOf m = firstSeen (d.map key))
    (h : ∀ r ∈ d, arrayIndex (key r) = none) :
    ∀ p ∈ m, isIndexKey p = false := by
  intro p hp
  have h1 : p.1 ∈ keysOf m := List.mem_map_of_mem Prod.fst hp
  rw [hk] at h1
  have h2 : p.1 ∈ d.map key := (mem_firstSeen _ _).mp h1
  obtain ⟨r, hr, hrk⟩ := List.mem_map.mp h2
  simp [isIndexKey, ← hrk, h r hr]

theorem sum_snd_bump (k : String) (m : List (String × Nat)) :
    ((bump k 0 (fun n => n + 1) m).map Prod.snd).sum = (m.map Prod.snd).sum + 1 := by
  induction m with
  | nil => simp [bump]
  | cons p rest ih =>
    obtain ⟨k1, v⟩ := p
    by_cases h : k1 = k
    · simp only [bump, if_pos h, List.map_cons, List.sum_cons]
      omega
    · simp only [bump, if_neg h, List.map_cons, List.sum_cons, ih]
      omega

theorem sum_snd_countsBy (key : BookingRecord → String) :
    ∀ (d : List BookingRecord) (m : List (String × Nat)),
      ((d.foldl (fun m r => bump (key r) 0 (fun n => n + 1) m) m).map Prod.snd).sum =
        (m.map Prod.snd).sum + d.length
  | [], m => by simp
  | r :: d, m => by
    rw [List.foldl_cons, sum_snd_countsBy key d, sum_snd_bump, List.length_cons]
    omega

theorem length_le_two_of_mem_pair {l : List String} {a b : String}
    (hn : l.Nodup) (h : ∀ x ∈ l, x = a ∨ x = b) : l.length ≤ 2 := by
  rcases l with _ | ⟨x, _ | ⟨y, _ | ⟨z, t⟩⟩⟩
  · simp
  · simp
  · simp
  · exfalso
    simp only [List.nodup_cons, List.mem_cons] at hn
    have hxy : x ≠ y := fun he => hn.1 (Or.inl he)
    have hxz : x ≠ z := fun he => hn.1 (Or.inr (Or.inl he))
    have hyz : y ≠ z := fun he => hn.2.1 (Or.inl he)
    have hx := h x (by simp)
    have hy := h y (by simp)
    have hz := h z (by simp)
    rcases hx with rfl | rfl <;> rcases hy with h2 | h2 <;>
      rcases hz with h3 | h3 <;> simp_all

theorem foldl_add_all_zero :
    ∀ (l : List JSNum), (∀ x ∈ l, x = JSNum.fin 0) →
      ∀ q : ℚ, l.foldl JSNum.add (JSNum.fin q) = JSNum.fin q
  | [], _, _ => rfl
  | x :: l, h, q => by
    have hx : x = JSNum.fin 0 := h x (by simp)
    rw [List.foldl_cons, hx,
      show JSNum.add (JSNum.fin q) (JSNum.fin 0) = JSNum.fin q from by
        simp [JSNum.add]]
    exact foldl_add_all_zero l (fun y hy => h y (by simp [hy])) q

theorem qfloor_eq_floor (q : ℚ) : qfloor q = Int.floor q := by
  rw [Rat.floor_def, qfloor]
  exact Int.fdiv_eq_ediv q.num (by positivity)

theorem floor_half : Int.floor ((1 : ℚ)/2) = 0 := by
  rw [Int.floor_eq_iff]
  norm_num

theorem rha_intCast (n : ℤ) : rha ((n : ℤ) : ℚ) = n := by
  by_cases h : (0 : ℚ) ≤ (n : ℚ)
  · rw [rha, if_pos h, qfloor_eq_floor, Int.floor_int_add, floor_half]
    omega
  · rw [rha, if_neg h, show -((n : ℚ)) + 1/2 = ((-n : ℤ) : ℚ) + 1/2 by
      push_cast
      ring,
      qfloor_eq_floor, Int.floor_int_add, floor_half]
    omega

theorem fix1_fin_zero : fix1 (JSNum.fin 0) = JSNum.fin 0 := by
  show JSNum.fin ((rha (10 * 0) : ℚ) / 10) = JSNum.fin 0
  rw [show (10 : ℚ) * 0 = ((0 : ℤ) : ℚ) by norm_num, rha_intCast]
  norm_num

theorem divNat_fin_zero {c : Nat} (hc : 0 < c) :
    JSNum.divNat (JSNum.fin 0) c = JSNum.fin 0 := by
  have hne : ¬ c = 0 := Nat.pos_iff_ne_zero.mp hc
  simp [JSNum.divNat, hne]

theorem rowPass_eq_specPass (sel : Selection) (r : BookingRecord) :
    rowPass sel r = specPass sel r := by
  rw [Bool.eq_iff_iff]
  simp [rowPass, specPass]

/-- Claim C1: for every record store and filter selection, the filter engine
returns exactly the records satisfying the spec predicate, preserves their
relative order (the output is a sublist of the input), and its length equals
the count of records satisfying the predicate; the function is total. -/
theorem C1_filter_engine (d : List BookingRecord) (sel : Selection) :
    filteredData d sel = d.filter (specPass sel) ∧
    (∀ r, r ∈ filteredData d sel ↔ r ∈ d ∧ specPass sel r = true) ∧
    (filteredData d sel).Sublist d ∧
    (filteredData d sel).length = d.countP (specPass sel) := by
  have hfd : filteredData d sel = d.filter (specPass sel) :=
    List.filter_congr (fun r _ => rowPass_eq_specPass sel r)
  refine ⟨hfd, ?_, ?_, ?_⟩
  · intro r
    rw [hfd]
    exact List.mem_filter
  · exact List.filter_sublist d
  · rw [hfd, ← List.countP_eq_length_filter]

/-- Witness for claim C1, evaluated on a concrete two-record store. -/
theorem C1_filter_engine_witness :
    filteredData
        [⟨some "AKLDEL", some "RoundTrip", some "1", none, none⟩,
         ⟨some "SYDBKK", some "OneWay", some "0", none, none⟩]
        ⟨"AKLDEL", ""⟩ =
      List.filter (specPass ⟨"AKLDEL", ""⟩)
        [⟨some "AKLDEL", some "RoundTrip", some "1", none, none⟩,
         ⟨some "SYDBKK", some "OneWay", some "0", none, none⟩] :=
  (C1_filter_engine _ _).1

theorem divNat_fin_pos (q : ℚ) (c : Nat) (hc : 0 < c) :
    JSNum.divNat (JSNum.fin q) c = JSNum.fin (q / (c : ℚ)) := by
  have hne : ¬ c = 0 := Nat.pos_iff_ne_zero.mp hc
  simp [JSNum.divNat, hne]

theorem fix1_fin_int (n : ℤ) :
    fix1 (JSNum.fin ((n : ℤ) : ℚ)) = JSNum.fin ((n : ℤ) : ℚ) := by
  show JSNum.fin ((rha (10 * ((n : ℤ) : ℚ)) : ℚ) / 10) = JSNum.fin ((n : ℤ) : ℚ)
  rw [show (10 : ℚ) * ((n : ℤ) : ℚ) = ((10 * n : ℤ) : ℚ) by
    push_cast
    ring, rha_intCast]
  congr 1
  push_cast
  ring

theorem fix1_divNat_int (s : ℚ) (c : Nat) (n : ℤ) (hc : 0 < c)
    (h : s / (c : ℚ) = ((n : ℤ) : ℚ)) :
    fix1 (JSNum.divNat (JSNum.fin s) c) = JSNum.fin ((n : ℤ) : ℚ) := by
  rw [divNat_fin_pos s c hc, h, fix1_fin_int]

theorem toFixed1Str_zero : toFixed1Str 0 = "0.0" := by
  show (if (0 : ℚ) < 0 then "-" else "") ++
      toString ((rha (10 * (0 : ℚ))).natAbs / 10) ++ "." ++
      toString ((rha (10 * (0 : ℚ))).natAbs % 10) = "0.0"
  rw [show (10 : ℚ) * 0 = ((0 : ℤ) : ℚ) by norm_num, rha_intCast,
    if_neg (by norm_num : ¬ (0 : ℚ) < 0)]
  rfl

theorem avgLead_entry (d : List BookingRecord) :
    ∀ p ∈ avgLeadByRoute d, ∃ k,
      p = (getRouteName k, fix1 (JSNum.divNat (leadSum d k) (leadCount d k))) ∧
      0 < leadCount d k := by
  intro p hp
  by_cases hd : d.isEmpty
  · simp [avgLeadByRoute, hd] at hp
  · rw [show avgLeadByRoute d = ((jsEntries (sumsBy d)).take 12).map
        (fun p => (getRouteName p.1, fix1 (JSNum.divNat p.2.1 p.2.2))) from by
      simp [avgLeadByRoute, hd]] at hp
    obtain ⟨q, hq, rfl⟩ := List.mem_map.mp hp
    have hq2 : q ∈ jsEntries (sumsBy d) := (List.take_sublist 12 _).subset hq
    have hq3 : q ∈ sumsBy d := (jsEntries_perm _).mem_iff.mp hq2
    rw [sumsBy_eq] at hq3
    obtain ⟨k, hk, rfl⟩ := List.mem_map.mp hq3
    refine ⟨k, rfl, ?_⟩
    have hk2 : k ∈ d.map routeKey := (mem_firstSeen _ _).mp hk
    obtain ⟨r, hr, hrk⟩ := List.mem_map.mp hk2
    rw [leadCount]
    exact List.countP_pos_iff.mpr ⟨r, hr, by simp [hrk]⟩

theorem topRoutes_entry (d : List BookingRecord) :
    ∀ p ∈ topRoutes d, ∃ k,
      p = (getRouteName k, d.countP (fun r => decide (routeKey r = k))) ∧
      0 < d.countP (fun r => decide (routeKey r = k)) := by
  intro p hp
  by_cases hd : d.isEmpty
  · simp [topRoutes, hd] at hp
  · rw [show topRoutes d = ((sortByCountDesc (jsEntries (countsBy routeKey d))).take 10).map
        (fun p => (getRouteName p.1, p.2)) from by
      simp [topRoutes, hd]] at hp
    obtain ⟨q, hq, rfl⟩ := List.mem_map.mp hp
    have hq2 : q ∈ sortByCountDesc (jsEntries (countsBy routeKey d)) :=
      (List.take_sublist 10 _).subset hq
    have hq3 : q ∈ jsEntries (countsBy routeKey d) :=
      (List.perm_insertionSort countGE _).mem_iff.mp hq2
    have hq4 : q ∈ countsBy routeKey d := (jsEntries_perm _).mem_iff.mp hq3
    rw [countsBy_eq] at hq4
    obtain ⟨k, hk, rfl⟩ := List.mem_map.mp hq4
    refine ⟨k, rfl, ?_⟩
    have hk2 : k ∈ d.map routeKey := (mem_firstSeen _ _).mp hk
    obtain ⟨r, hr, hrk⟩ := List.mem_map.mp hk2
    exact List.countP_pos_iff.mpr ⟨r, hr, by simp [hrk]⟩

/-- Counterexample to claim C2 as stated: a store whose booking_complete
values are 0, 2 and 1 makes the completion breakdown emit three entries,
not at most two. -/
theorem C2_counterexample :
    (byCompletion mixedCompletion).length = 3 ∧
    ¬ (byCompletion mixedCompletion).length ≤ 2 := by decide

/-- Claim C2 (amended): every completion-breakdown entry is labeled Complete
(for the raw key 1) or Incomplete (any other raw key, a missing field
counting as 0), the entry values always sum to the length of the input
sequence, and when every record's completion key is 0 or 1 the output has at
most two entries; in general the code emits one entry per distinct raw
booking_complete value rather than merging them into two buckets. -/
theorem C2_completion_breakdown (d : List BookingRecord) :
    (∀ p ∈ byCompletion d, p.1 = "Complete" ∨ p.1 = "Incomplete") ∧
    ((byCompletion d).map Prod.snd).sum = d.length ∧
    ((∀ r ∈ d, bcKey r = "0" ∨ bcKey r = "1") →
      (byCompletion d).length ≤ 2) := by
  by_cases hd : d.isEmpty
  · have hd2 : d = [] := List.isEmpty_iff.mp hd
    subst hd2
    exact ⟨by simp [byCompletion], by simp [byCompletion], fun _ => by
      simp [byCompletion]⟩
  · refine ⟨?_, ?_, ?_⟩
    · intro p hp
      rw [show byCompletion d = (jsEntries (countsBy bcKey d)).map
          (fun p => (if p.1 = "1" then "Complete" else "Incomplete", p.2)) from by
        simp [byCompletion, hd]] at hp
      obtain ⟨q, hq, rfl⟩ := List.mem_map.mp hp
      by_cases h1 : q.1 = "1" <;> simp [h1]
    · rw [show byCompletion d = (jsEntries (countsBy bcKey d)).map
          (fun p => (if p.1 = "1" then "Complete" else "Incomplete", p.2)) from by
        simp [byCompletion, hd]]
      rw [List.map_map]
      have hco : ((jsEntries (countsBy bcKey d)).map
          (Prod.snd ∘ fun p : String × Nat =>
            (if p.1 = "1" then "Complete" else "Incomplete", p.2))) =
          (jsEntries (countsBy bcKey d)).map Prod.snd := rfl
      rw [hco, ((jsEntries_perm (countsBy bcKey d)).map Prod.snd).sum_eq]
      have hs := sum_snd_countsBy bcKey d []
      simp only [List.map_nil, List.sum_nil, Nat.zero_add] at hs
      exact hs
    · intro h
      rw [show byCompletion d = (jsEntries (countsBy bcKey d)).map
          (fun p => (if p.1 = "1" then "Complete" else "Incomplete", p.2)) from by
        simp [byCompletion, hd]]
      rw [List.length_map, (jsEntries_perm _).length_eq,
        show (countsBy bcKey d).length = (keysOf (countsBy bcKey d)).length from
          (List.length_map _ _).symm,
        keysOf_countsBy]
      apply length_le_two_of_mem_pair (nodup_firstSeen _)
      intro x hx
      obtain ⟨r, hr, rfl⟩ := List.mem_map.mp ((mem_firstSeen _ _).mp hx)
      exact h r hr

/-- Witness for claim C2 on the three-record scenario store. -/
theorem C2_completion_breakdown_witness :
    ((byCompletion scenario3).map Prod.snd).sum = scenario3.length ∧
    (byCompletion scenario3).length ≤ 2 :=
  ⟨(C2_completion_breakdown scenario3).2.1,
   (C2_completion_breakdown scenario3).2.2 (by decide)⟩

/-- Counterexample to claim C3 as stated: on the scenario store the code
orders the completion breakdown by the numeric object keys 0 and 1, so
Incomplete comes first, not Complete. -/
theorem C3_counterexample :
    byCompletion scenario3 ≠ [("Complete", 2), ("Incomplete", 1)] := by decide

/-- Claim C3 (amended): on the three-record scenario store with no filter,
the completion breakdown is Incomplete 1 then Complete 2 (numeric object
keys enumerate in ascending order), and the other three projections are as
claimed: trip types RoundTrip 2 then OneWay 1, top routes Auckland to Delhi
2 then Sydney to Bangkok 1, average leads 15 and 5 on the same routes. -/
theorem C3_scenario :
    byCompletion scenario3 = [("Incomplete", 1), ("Complete", 2)] ∧
    byTripType scenario3 = [("RoundTrip", 2), ("OneWay", 1)] ∧
    topRoutes scenario3 = [("Auckland → Delhi", 2), ("Sydney → Bangkok", 1)] ∧
    avgLeadByRoute scenario3 =
      [("Auckland → Delhi", JSNum.fin 15), ("Sydney → Bangkok", JSNum.fin 5)] := by
  refine ⟨by decide, by decide, by decide, ?_⟩
  rw [show avgLeadByRoute scenario3 =
      [("Auckland → Delhi", fix1 (JSNum.divNat (JSNum.fin (0 + 10 + 20)) 2)),
       ("Sydney → Bangkok", fix1 (JSNum.divNat (JSNum.fin (0 + 5)) 1))] from rfl]
  rw [fix1_divNat_int (0 + 10 + 20) 2 15 (by norm_num) (by norm_num),
    fix1_divNat_int (0 + 5) 1 5 (by norm_num) (by norm_num)]
  norm_num

/-- Counterexample to claim C4 as stated: with routes AKLDEL then 7, each
seen once, the code lists the numeric route 7 first, violating the claimed
first-encountered tie-breaking. -/
theorem C4_counterexample :
    topRoutes numericRouteData = [("7", 1), ("Auckland → Delhi", 1)] ∧
    topRoutes numericRouteData ≠ [("Auckland → Delhi", 1), ("7", 1)] := by decide

/-- Claim C4 (amended): the top-routes projection has at most ten entries,
is sorted non-increasing by count, every entry is a resolved route name with
the exact count of records of that route (missing and empty routes counted
under Unknown), and, whenever no route string is a canonical array-index
string, it equals the specification projection: per-route counts in
first-seen order, stably sorted descending by count, truncated to ten, with
resolved names; ties are then broken by first-encountered order.  When a
route string is a canonical array index, object key enumeration moves it to
the front instead. -/
theorem C4_top_routes (d : List BookingRecord) :
    (topRoutes d).length ≤ 10 ∧
    List.Pairwise (fun a b => b.2 ≤ a.2) (topRoutes d) ∧
    (∀ p ∈ topRoutes d, ∃ k,
      p = (getRouteName k, d.countP (fun r => decide (routeKey r = k))) ∧
      0 < d.countP (fun r => decide (routeKey r = k))) ∧
    ((∀ r ∈ d, arrayIndex (routeKey r) = none) →
      topRoutes d = specTopRoutes d) := by
  refine ⟨?_, ?_, topRoutes_entry d, ?_⟩
  · by_cases hd : d.isEmpty
    · simp [topRoutes, hd]
    · rw [show topRoutes d = ((sortByCountDesc (jsEntries (countsBy routeKey d))).take 10).map
          (fun p => (getRouteName p.1, p.2)) from by simp [topRoutes, hd]]
      rw [List.length_map, List.length_take]
      exact Nat.min_le_left _ _
  · by_cases hd : d.isEmpty
    · simp [topRoutes, hd]
    · rw [show topRoutes d = ((sortByCountDesc (jsEntries (countsBy routeKey d))).take 10).map
          (fun p => (getRouteName p.1, p.2)) from by simp [topRoutes, hd]]
      apply List.pairwise_map.mpr
      have hs : List.Pairwise countGE (sortByCountDesc (jsEntries (countsBy routeKey d))) :=
        List.sorted_insertionSort countGE _
      have ht : List.Pairwise countGE
          ((sortByCountDesc (jsEntries (countsBy routeKey d))).take 10) :=
        List.Pairwise.sublist (List.take_sublist 10 _) hs
      exact ht.imp (fun hab => hab)
  · intro h
    by_cases hd : d.isEmpty
    · have hd2 : d = [] := List.isEmpty_iff.mp hd
      subst hd2
      rfl
    · rw [show topRoutes d = ((sortByCountDesc (jsEntries (countsBy routeKey d))).take 10).map
          (fun p => (getRouteName p.1, p.2)) from by simp [topRoutes, hd]]
      rw [jsEntries_eq_self _ (no_index_of_keys (keysOf_countsBy routeKey d) h),
        countsBy_eq]
      rfl

/-- Witness for claim C4 on the three-record scenario store. -/
theorem C4_top_routes_witness :
    (topRoutes scenario3).length ≤ 10 ∧
    topRoutes scenario3 = specTopRoutes scenario3 :=
  ⟨(C4_top_routes scenario3).1, (C4_top_routes scenario3).2.2.2 (by decide)⟩

/-- Counterexample to claim C5 as stated: with routes AKLDEL then 7, the
code lists the numeric route 7 first, violating the claimed first-seen
insertion order of the average-lead projection. -/
theorem C5_counterexample :
    avgLeadByRoute numericRouteLeads =
      [("7", JSNum.fin 4), ("Auckland → Delhi", JSNum.fin 2)] ∧
    avgLeadByRoute numericRouteLeads ≠
      [("Auckland → Delhi", JSNum.fin 2), ("7", JSNum.fin 4)] := by
  have h2 : avgLeadByRoute numericRouteLeads =
      [("7", JSNum.fin 4), ("Auckland → Delhi", JSNum.fin 2)] := by
    rw [show avgLeadByRoute numericRouteLeads =
        [("7", fix1 (JSNum.divNat (JSNum.fin (0 + 4)) 1)),
         ("Auckland → Delhi", fix1 (JSNum.divNat (JSNum.fin (0 + 2)) 1))] from rfl]
    rw [fix1_divNat_int (0 + 4) 1 4 (by norm_num) (by norm_num),
      fix1_divNat_int (0 + 2) 1 2 (by norm_num) (by norm_num)]
    norm_num
  refine ⟨h2, ?_⟩
  rw [h2]
  intro heq
  simp at heq

/-- Claim C5 (amended): the average-lead projection has at most twelve
entries; each entry is a resolved route name together with the rounded
average of the coerced purchase_lead values of that route, whose record
count is positive; and, whenever no route string is a canonical array-index
string, it equals the specification projection: the first twelve distinct
routes in first-seen insertion order.  When a route string is a canonical
array index, object key enumeration moves it to the front instead. -/
theorem C5_avg_lead (d : List BookingRecord) :
    (avgLeadByRoute d).length ≤ 12 ∧
    (∀ p ∈ avgLeadByRoute d, ∃ k,
      p = (getRouteName k, fix1 (JSNum.divNat (leadSum d k) (leadCount d k))) ∧
      0 < leadCount d k) ∧
    ((∀ r ∈ d, arrayIndex (routeKey r) = none) →
      avgLeadByRoute d = specAvgLead d) := by
  refine ⟨?_, avgLead_entry d, ?_⟩
  · by_cases hd : d.isEmpty
    · simp [avgLeadByRoute, hd]
    · rw [show avgLeadByRoute d = ((jsEntries (sumsBy d)).take 12).map
          (fun p => (getRouteName p.1, fix1 (JSNum.divNat p.2.1 p.2.2))) from by
        simp [avgLeadByRoute, hd]]
      rw [List.length_map, List.length_take]
      exact Nat.min_le_left _ _
  · intro h
    by_cases hd : d.isEmpty
    · have hd2 : d = [] := List.isEmpty_iff.mp hd
      subst hd2
      rfl
    · rw [show avgLeadByRoute d = ((jsEntries (sumsBy d)).take 12).map
          (fun p => (getRouteName p.1, fix1 (JSNum.divNat p.2.1 p.2.2))) from by
        simp [avgLeadByRoute, hd]]
      rw [jsEntries_eq_self _ (no_index_of_keys (keysOf_sumsBy d) h), sumsBy_eq,
        ← List.map_take, List.map_map]
      rfl

/-- Witness for claim C5 on the three-record scenario store. -/
theorem C5_avg_lead_witness :
    (avgLeadByRoute scenario3).length ≤ 12 ∧
    avgLeadByRoute scenario3 = specAvgLead scenario3 :=
  ⟨(C5_avg_lead scenario3).1, (C5_avg_lead scenario3).2.2 (by decide)⟩

/-- Counterexample to claim C6 as stated: a purchase_lead of Infinity
converts to a valid-but-infinite number which the or-zero guard does not
replace by 0, and a num_passengers of abc converts to NaN which the stats
memo feeds into its sum unguarded instead of treating it as 0. -/
theorem C6_counterexample :
    orZero (jsNumber (some "Infinity")) = JSNum.posInf ∧
    ¬ orZero (jsNumber (some "Infinity")) = JSNum.fin 0 ∧
    numPassVal ⟨none, none, none, some "abc", none⟩ = JSNum.nan ∧
    ¬ numPassVal ⟨none, none, none, some "abc", none⟩ = JSNum.fin 0 := by decide

/-- Claim C6 (amended): purchase_lead values whose conversion is NaN
(non-numeric or missing) are treated as exactly 0 in the lead averages, so
a store of such records averages to 0 on every route; num_passengers values
that are missing or empty are treated as exactly 0, so the average
passenger count of such a store is the string 0.0.  Infinite conversions
are not coerced to 0, and non-numeric num_passengers values propagate NaN
into the sum. -/
theorem C6_numeric_coercion (d : List BookingRecord) :
    ((∀ r ∈ d, jsNumber r.purchase_lead = JSNum.nan) →
      ∀ p ∈ avgLeadByRoute d, p.2 = JSNum.fin 0) ∧
    ((∀ r ∈ d, r.num_passengers = none ∨ r.num_passengers = some "") →
      d ≠ [] → (statsOf d).avgPassengers = "0.0") := by
  constructor
  · intro h p hp
    obtain ⟨k, rfl, hpos⟩ := avgLead_entry d p hp
    show fix1 (JSNum.divNat (leadSum d k) (leadCount d k)) = JSNum.fin 0
    have hsum : leadSum d k = JSNum.fin 0 := by
      rw [leadSum]
      apply foldl_add_all_zero
      intro x hx
      obtain ⟨r, hr, rfl⟩ := List.mem_map.mp hx
      have hrd : r ∈ d := (List.filter_sublist d).subset hr
      rw [coerceLead, h r hrd]
      rfl
    rw [hsum, divNat_fin_zero hpos, fix1_fin_zero]
  · intro h hne
    have hz : ∀ x ∈ d.map numPassVal, x = JSNum.fin 0 := by
      intro x hx
      obtain ⟨r, hr, rfl⟩ := List.mem_map.mp hx
      rcases h r hr with h1 | h1 <;> simp [numPassVal, h1]
    have hlen : 0 < d.length := List.length_pos.mpr hne
    show (if 0 < d.length then
        jsNumToFixed1 (JSNum.divNat
          ((d.map numPassVal).foldl JSNum.add (JSNum.fin 0)) d.length)
      else "0") = "0.0"
    rw [if_pos hlen, foldl_add_all_zero (d.map numPassVal) hz 0,
      divNat_fin_zero hlen]
    show toFixed1Str 0 = "0.0"
    exact toFixed1Str_zero

/-- Witness for claim C6 on a store with one non-numeric lead and no
passenger counts. -/
theorem C6_numeric_coercion_witness :
    (∀ p ∈ avgLeadByRoute nanLeadStore, p.2 = JSNum.fin 0) ∧
    (statsOf nanLeadStore).avgPassengers = "0.0" :=
  ⟨(C6_numeric_coercion nanLeadStore).1 (by decide),
   (C6_numeric_coercion nanLeadStore).2 (by decide) (by decide)⟩

theorem facet_spec (l : List (Option String)) :
    (List.insertionSort (fun a b => a ≤ b) (firstSeen (truthyVals l))).Nodup ∧
    List.Pairwise (fun a b : String => a ≤ b)
      (List.insertionSort (fun a b => a ≤ b) (firstSeen (truthyVals l))) ∧
    (∀ s, s ∈ List.insertionSort (fun a b => a ≤ b) (firstSeen (truthyVals l)) ↔
      some s ∈ l ∧ s ≠ "") := by
  refine ⟨?_, ?_, ?_⟩
  · exact ((List.perm_insertionSort _ _).nodup_iff).mpr (nodup_firstSeen _)
  · exact List.sorted_insertionSort _ _
  · intro s
    rw [List.mem_insertionSort, mem_firstSeen, truthyVals, List.mem_filterMap]
    constructor
    · rintro ⟨o, ho, hos⟩
      match o with
      | none => simp at hos
      | some t =>
        by_cases ht : t = ""
        · rw [show ((match some t with
            | none => none
            | some s => if s = "" then none else some s) : Option String) =
              (if t = "" then none else some t) from rfl, if_pos ht] at hos
          exact absurd hos (by simp)
        · rw [show ((match some t with
            | none => none
            | some s => if s = "" then none else some s) : Option String) =
              (if t = "" then none else some t) from rfl, if_neg ht] at hos
          have hts : t = s := Option.some.inj hos
          subst hts
          exact ⟨ho, ht⟩
    · rintro ⟨hmem, hne⟩
      exact ⟨some s, hmem, by simp [hne]⟩

/-- Claim C7: the facet extractor returns, for each of the two facet
columns, the distinct truthy values of that column with duplicates removed,
sorted ascending, and with empty or missing values excluded from the result:
a value is offered exactly when some record carries it and it is not the
empty string, so no Unknown facet is ever offered for absent values. -/
theorem C7_facet_extractor (d : List BookingRecord) :
    (routesFacet d).Nodup ∧
    List.Pairwise (fun a b : String => a ≤ b) (routesFacet d) ∧
    (∀ s, s ∈ routesFacet d ↔
      some s ∈ d.map (fun r => r.route) ∧ s ≠ "") ∧
    (tripTypesFacet d).Nodup ∧
    List.Pairwise (fun a b : String => a ≤ b) (tripTypesFacet d) ∧
    (∀ s, s ∈ tripTypesFacet d ↔
      some s ∈ d.map (fun r => r.trip_type) ∧ s ≠ "") := by
  obtain ⟨h1, h2, h3⟩ := facet_spec (d.map (fun r => r.route))
  obtain ⟨h4, h5, h6⟩ := facet_spec (d.map (fun r => r.trip_type))
  exact ⟨h1, h2, h3, h4, h5, h6⟩

/-- Witness for claim C7 on the three-record scenario store. -/
theorem C7_facet_extractor_witness :
    "AKLDEL" ∈ routesFacet scenario3 ↔
      some "AKLDEL" ∈ scenario3.map (fun r => r.route) ∧ "AKLDEL" ≠ "" :=
  (C7_facet_extractor scenario3).2.2.1 "AKLDEL"

/-- Claim C8: the empty filtered sequence yields empty sequences for all
four projections, with no error and no placeholder row, and the summary
statistics are total zero and completion rate the string 0. -/
theorem C8_empty_store :
    byCompletion [] = [] ∧ byTripType [] = [] ∧ topRoutes [] = [] ∧
    avgLeadByRoute [] = [] ∧ (statsOf []).total = 0 ∧
    (statsOf []).completionRate = "0" := by decide

/-- Claim C9: the pipeline is a pure function of store and selection;
applying the same selection twice yields the identical filtered sequence,
and therefore identical outputs of all four projections and of the summary
statistics. -/
theorem C9_pure_pipeline (d : List BookingRecord) (sel : Selection) :
    filteredData (filteredData d sel) sel = filteredData d sel ∧
    byCompletion (filteredData (filteredData d sel) sel) =
      byCompletion (filteredData d sel) ∧
    byTripType (filteredData (filteredData d sel) sel) =
      byTripType (filteredData d sel) ∧
    topRoutes (filteredData (filteredData d sel) sel) =
      topRoutes (filteredData d sel) ∧
    avgLeadByRoute (filteredData (filteredData d sel) sel) =
      avgLeadByRoute (filteredData d sel) ∧
    statsOf (filteredData (filteredData d sel) sel) =
      statsOf (filteredData d sel) := by
  have h : filteredData (filteredData d sel) sel = filteredData d sel := by
    show (d.filter (rowPass sel)).filter (rowPass sel) = d.filter (rowPass sel)
    rw [List.filter_filter]
    exact List.filter_congr (fun a _ => by simp)
  exact ⟨h, by rw [h], by rw [h], by rw [h], by rw [h], by rw [h]⟩

/-- Claim C10: applying the filter engine with both facet selections empty
returns the record store itself, element for element, including records
whose route or trip type is missing or empty. -/
theorem C10_empty_selection (d : List BookingRecord) :
    filteredData d ⟨"", ""⟩ = d := by
  show d.filter (rowPass ⟨"", ""⟩) = d
  apply List.filter_eq_self.mpr
  intro a _
  simp [rowPass]
